import Mathlib

/-
  Verification development for the metaspace allocator stack of this
  repository (hotspot/share/memory/metaspace).

  Addresses (MetaWord pointers) are modelled as natural numbers counting
  words; the null pointer is 0.  Machine size_t arithmetic never comes
  near 2^64 in any statement below, so Nat is used directly.

  Each definition is translated from the named source file.  Components
  whose implementation files are not part of the repository snapshot
  (binList.hpp, blockTree.hpp, metachunk.hpp, metablock.inline.hpp) are
  modelled from the spec, and say so in their doc comments.
-/

namespace Metaspace

/-- A word-indexed address; 0 plays the role of the null pointer. -/
abbrev Addr := Nat

/-- From metaspaceArena.cpp:58, constexpr size_t minimum_allocation_words =
LP64_ONLY(1) NOT_LP64(2); the LP64 value is used. -/
def minimum_allocation_words : Nat := 1

/-- MetaBlock, from metablock.hpp: a value type holding a base address and a
word count. -/
structure MetaBlock where
  base : Addr
  word_size : Nat
deriving DecidableEq, Repr

/-- The default constructor MetaBlock() : base nullptr, word size 0
(metablock.hpp:40). -/
def MetaBlock.null : MetaBlock := ⟨0, 0⟩

/-- The two-argument constructor MetaBlock(MetaWord* p, size_t word_size) as
the source writes it at metablock.hpp:41-42, initializer list included:
the initializer is written `_base(p), _word_size(0)`, so the word count
argument is dropped and the stored word size is 0. -/
def MetaBlock.mk2 (p : Addr) (word_size : Nat) : MetaBlock :=
  { base := p, word_size := 0 }

/-- MetaBlock::is_empty (metablock.hpp:47): the block is empty iff its base
is the null pointer. -/
def MetaBlock.is_empty (b : MetaBlock) : Bool := b.base == 0

/-- MetaBlock::tail (metablock.hpp:51-58): the sub-block at a given distance
from base, or the empty block when the distance is not below the word size. -/
def MetaBlock.tail (b : MetaBlock) (head_size : Nat) : MetaBlock :=
  if b.is_empty = false then
    if head_size < b.word_size then
      ⟨b.base + head_size, b.word_size - head_size⟩
    else MetaBlock.null
  else MetaBlock.null

/-- Modelled from the spec: MetaBlock "supports splitting into a head
sub-range and a tail remainder" (spec section 3); the member
MetaBlock::split_off_tail is called by classLoaderMetaspaceImpl.cpp:102 and
by the repository test gtest/metaspace/test_metablock.cpp (MetaBlock_3) but
its definition (metablock.inline.hpp) is not among the repository's files.
The argument convention is the one the repository's own test pins: the
argument is the size of the tail that is split off and returned, the
receiver keeps the head.  Returned pair: (the mutated receiver, the tail). -/
def MetaBlock.split_off_tail (b : MetaBlock) (tail_size : Nat) : MetaBlock × MetaBlock :=
  if b.is_empty then (b, MetaBlock.null)
  else
    let ts := min tail_size b.word_size
    let new_size := b.word_size - ts
    (⟨b.base, new_size⟩, ⟨b.base + new_size, ts⟩)

/-- Modelled from the spec: the lookup shared by the small-block index and
the large-block indexes, which "looks up an exact-or-larger match in the
routed index" (spec section 4.5).  binList.hpp and blockTree.hpp are not
among the repository's files; both structures are modelled as a list of
blocks, and the lookup picks a stored block of minimal word size among
those at least as large as the request. -/
def pickBestFit : List MetaBlock → Nat → Option MetaBlock
  | [], _ => none
  | b :: rest, n =>
    match pickBestFit rest n with
    | none => if n ≤ b.word_size then some b else none
    | some c => if n ≤ b.word_size ∧ b.word_size < c.word_size then some b else some c

/-- Modelled from the spec: removal from a free-block index (binlist or
blocktree).  Returns the found block and the index without it, or the null
block and the unchanged index when no stored block is large enough. -/
def removeBestFit (l : List MetaBlock) (n : Nat) : MetaBlock × List MetaBlock :=
  match pickBestFit l n with
  | none => (MetaBlock.null, l)
  | some b => (b, l.erase b)

/-- Modelled from the spec: addition to a free-block index; the block is
simply stored. -/
def addToIndex (l : List MetaBlock) (b : MetaBlock) : List MetaBlock :=
  l ++ [b]

/-- The constants and address-space facts the ClassLoaderMetaspaceImpl code
consults.  klass_alignment is _klass_alignment (words); sizeof_klass stands
for sizeof(Klass) in words; binlist_max is BinList32::MaxWordSize;
allocation_alignment is AllocationAlignmentWordSize; the class-space region
(Metaspace::is_in_class_space) is modelled as one contiguous address range. -/
structure ClmsConfig where
  klass_alignment : Nat
  sizeof_klass : Nat
  binlist_max : Nat
  allocation_alignment : Nat
  class_space_lo : Addr
  class_space_hi : Addr
deriving DecidableEq, Repr

/-- Metaspace::is_in_class_space, modelled on the configured range. -/
def ClmsConfig.in_class_space (cfg : ClmsConfig) (p : Addr) : Bool :=
  decide (cfg.class_space_lo ≤ p ∧ p < cfg.class_space_hi)

/-- The free-block structures a ClassLoaderMetaspaceImpl owns
(classLoaderMetaspaceImpl.hpp): _binlist_nc, _blocktree_nc, _blocktree_c. -/
structure FbState where
  binlist_nc : List MetaBlock
  blocktree_nc : List MetaBlock
  blocktree_c : List MetaBlock
deriving DecidableEq, Repr

/-- ClassLoaderMetaspaceImpl::deallocate_to_free_blocks
(classLoaderMetaspaceImpl.cpp:122-145): blocks below
minimum_allocation_words are dropped; a block in class space, aligned for
Klass and at least sizeof(Klass) words goes to the class block tree;
otherwise to the non-class block tree if at least BinList32::MaxWordSize
words, else to the non-class bin list. -/
def FbState.deallocate_to_free_blocks (cfg : ClmsConfig) (st : FbState)
    (block : MetaBlock) : FbState :=
  if minimum_allocation_words ≤ block.word_size then
    let is_class_space := cfg.in_class_space block.base
    let aligned_for_klass := block.base % cfg.klass_alignment == 0
    let large_enough_for_klass := cfg.sizeof_klass ≤ block.word_size
    if is_class_space && aligned_for_klass && decide large_enough_for_klass then
      { st with blocktree_c := addToIndex st.blocktree_c block }
    else
      if cfg.binlist_max ≤ block.word_size then
        { st with blocktree_nc := addToIndex st.blocktree_nc block }
      else
        { st with binlist_nc := addToIndex st.binlist_nc block }
  else st

/-- The lookup phase of ClassLoaderMetaspaceImpl::allocate_from_freeblocks
(classLoaderMetaspaceImpl.cpp:77-97): a class request goes to the class
block tree; a non-class request first to the bin list when below
BinList32::MaxWordSize, then, if still empty, to the non-class block
tree. -/
def FbState.freeblocksLookup (cfg : ClmsConfig) (st : FbState)
    (word_size : Nat) (isClassKind : Bool) : MetaBlock × FbState :=
  if isClassKind then
    let rb := removeBestFit st.blocktree_c word_size
    (rb.1, { st with blocktree_c := rb.2 })
  else
    let r1 :=
      if word_size < cfg.binlist_max then removeBestFit st.binlist_nc word_size
      else (MetaBlock.null, st.binlist_nc)
    let stA := { st with binlist_nc := r1.2 }
    if r1.1.is_empty then
      let r2 := removeBestFit stA.blocktree_nc word_size
      (r2.1, { stA with blocktree_nc := r2.2 })
    else (r1.1, stA)

/-- ClassLoaderMetaspaceImpl::allocate_from_freeblocks
(classLoaderMetaspaceImpl.cpp:72-120): the lookup above, then the found
block is split with split_off_tail(word_size) as at line 102, and the
remainder is re-deposited only when its word size is strictly above
minimum_allocation_words (line 103). -/
def FbState.allocate_from_freeblocks (cfg : ClmsConfig) (st : FbState)
    (word_size : Nat) (isClassKind : Bool) : MetaBlock × FbState :=
  let found := st.freeblocksLookup cfg word_size isClassKind
  if found.1.is_empty = false then
    let sp := found.1.split_off_tail word_size
    let st2 :=
      if minimum_allocation_words < sp.2.word_size then
        found.2.deallocate_to_free_blocks cfg sp.2
      else found.2
    (sp.1, st2)
  else found

/-- The value of the local variable `result` at the end of
ClassLoaderMetaspaceImpl::allocate (classLoaderMetaspaceImpl.cpp:147-171),
together with the final free-block state and whether the arena was
consulted.  The matching arena's allocate call is passed in as the pair
(arena_result, arena_wastage), since the arena path only runs on a
free-block miss.  Note that the source function itself ends without a
return statement. -/
def FbState.clmsAllocate (cfg : ClmsConfig) (st : FbState) (word_size : Nat)
    (isClassKind : Bool) (arena_result arena_wastage : MetaBlock) :
    MetaBlock × FbState × Bool :=
  let fb := st.allocate_from_freeblocks cfg word_size isClassKind
  if fb.1.is_empty then
    let st2 :=
      if arena_wastage.is_empty = false then
        fb.2.deallocate_to_free_blocks cfg arena_wastage
      else fb.2
    (arena_result, st2, true)
  else (fb.1, fb.2, false)

/-- ClassLoaderMetaspaceImpl::deallocate (classLoaderMetaspaceImpl.cpp:173-175):
deposits the block straight into the free-block structures. -/
def FbState.clmsDeallocate (cfg : ClmsConfig) (st : FbState) (block : MetaBlock) :
    FbState :=
  st.deallocate_to_free_blocks cfg block

/-- The FreeBlocks dictionary of freeBlocks.cpp: _small_blocks_nc, _tree_nc,
_tree_c. -/
structure FreeBlocks where
  small_blocks_nc : List MetaBlock
  tree_nc : List MetaBlock
  tree_c : List MetaBlock
deriving DecidableEq, Repr

/-- FreeBlocks::add_block (freeBlocks.cpp:35-54): a block in class space,
aligned to AllocationAlignmentWordSize and at least sizeof(Klass) words goes
to the class tree; otherwise to the non-class tree when at least
MaxSmallBlocksWordSize words, else to the non-class small-block list. -/
def FreeBlocks.add_block (cfg : ClmsConfig) (fb : FreeBlocks) (block : MetaBlock) :
    FreeBlocks :=
  let is_class_space := cfg.in_class_space block.base
  let aligned_for_klass := block.base % cfg.allocation_alignment == 0
  let large_enough_for_klass := cfg.sizeof_klass ≤ block.word_size
  if is_class_space && aligned_for_klass && decide large_enough_for_klass then
    { fb with tree_c := addToIndex fb.tree_c block }
  else
    if cfg.binlist_max ≤ block.word_size then
      { fb with tree_nc := addToIndex fb.tree_nc block }
    else
      { fb with small_blocks_nc := addToIndex fb.small_blocks_nc block }

/-- FreeBlocks::remove_block (freeBlocks.cpp:56-79), as written: a class
request is looked up in the class tree; a non-class request below
MaxWordSize is looked up in the small-block list, and on a miss the
fallback at lines 72-75 queries _small_blocks_nc a second time (the
non-class tree _tree_nc is never consulted). -/
def FreeBlocks.remove_block (cfg : ClmsConfig) (fb : FreeBlocks) (word_size : Nat)
    (forClassKind : Bool) : MetaBlock × FreeBlocks :=
  if forClassKind then
    let rb := removeBestFit fb.tree_c word_size
    (rb.1, { fb with tree_c := rb.2 })
  else
    let r1 :=
      if word_size < cfg.binlist_max then removeBestFit fb.small_blocks_nc word_size
      else (MetaBlock.null, fb.small_blocks_nc)
    let fb1 := { fb with small_blocks_nc := r1.2 }
    if r1.1.is_empty then
      let r2 := removeBestFit fb1.small_blocks_nc word_size
      (r2.1, { fb1 with small_blocks_nc := r2.2 })
    else (r1.1, fb1)

/-- align_up on word-indexed addresses: the smallest multiple of a that is
not below x (utilities/align.hpp; the source aligns byte pointers to
alignment_words * BytesPerWord, which on word-indexed addresses is
alignment in words). -/
def align_up (x a : Nat) : Nat := ((x + a - 1) / a) * a

/-- Modelled from the spec: a Metachunk (metachunk.hpp is not among the
repository's files).  Per spec section 3 it carries a base address, a word
size determined by its level, a committed word count (the prefix backed by
committed memory, at most the word size) and a used word count (the
bump-allocated prefix, at most the committed count). -/
structure Metachunk where
  base : Addr
  word_size : Nat
  committed_words : Nat
  used_words : Nat
deriving DecidableEq, Repr

/-- Metachunk::top, the bump pointer: base plus used words. -/
def Metachunk.top (c : Metachunk) : Addr := c.base + c.used_words

/-- Metachunk::free_words: word size minus used words. -/
def Metachunk.free_words (c : Metachunk) : Nat := c.word_size - c.used_words

/-- Metachunk::free_below_committed_words: committed minus used words
(spec section 4.1: the in-place-reusable remainder). -/
def Metachunk.free_below_committed_words (c : Metachunk) : Nat :=
  c.committed_words - c.used_words

/-- Modelled from the spec, section 4.1: Metachunk::allocate bumps the
pointer within the committed prefix and fails if there is insufficient
committed room.  Returns the allocated address and the updated chunk. -/
def Metachunk.allocate (c : Metachunk) (n : Nat) : Option (Addr × Metachunk) :=
  if c.used_words + n ≤ c.committed_words then
    some (c.top, { c with used_words := c.used_words + n })
  else none

/-- Modelled from the spec, section 4.1: Metachunk::ensure_committed_additional
extends the committed prefix subject to the CommitLimiter; the limiter's
verdict is passed in as ok, and failure leaves the chunk unchanged. -/
def Metachunk.ensure_committed_additional (c : Metachunk) (n : Nat) (ok : Bool) :
    Metachunk :=
  if ok then { c with committed_words := max c.committed_words (c.used_words + n) }
  else c

/-- The MetaspaceArena state the claims touch: the owned chunk list, most
recent first (spec section 3: the most recent chunk is the current chunk,
the bump-allocation target), and the arena's contribution to the shared
used-words counter (_total_used_words_counter). -/
structure ArenaState where
  chunks : List Metachunk
  counter : Nat
deriving DecidableEq, Repr

/-- The sum of used words over the arena's chunks, as
MetaspaceArena::usage_numbers accumulates it (metaspaceArena.cpp:336-343). -/
def ArenaState.sumUsed (st : ArenaState) : Nat :=
  (st.chunks.map Metachunk.used_words).sum

/-- The outcome of MetaspaceArena::salvage_chunk. -/
structure SalvageOut where
  block : MetaBlock
  chunk : Metachunk
  inc : Nat
deriving DecidableEq, Repr

/-- MetaspaceArena::salvage_chunk (metaspaceArena.cpp:62-81): if the chunk's
free-but-committed remainder is at least minimum_allocation_words, allocate
it from the chunk, add it to the used-words counter (inc) and return it as
a block; otherwise return the empty block and leave everything unchanged. -/
def salvage_chunk (c : Metachunk) : SalvageOut :=
  let remaining_words := c.free_below_committed_words
  if minimum_allocation_words ≤ remaining_words then
    { block := ⟨c.top, remaining_words⟩,
      chunk := { c with used_words := c.used_words + remaining_words },
      inc := remaining_words }
  else
    { block := MetaBlock.null, chunk := c, inc := 0 }

/-- The outside world's answers consulted by one MetaspaceArena::allocate
call: whether ChunkManager::attempt_enlarge_chunk succeeds (together with
the guards of attempt_enlarge_current_chunk, metaspaceArena.cpp:153-194,
whose inputs live in the missing metachunk.hpp and metaspaceSettings.hpp),
whether ensure_committed_additional succeeds against the CommitLimiter, and
the chunk allocate_new_chunk obtains from the ChunkManager (none on
failure). -/
structure ArenaOracles where
  enlarge_ok : Bool
  commit_ok : Bool
  new_chunk : Option Metachunk
deriving DecidableEq, Repr

/-- The outcome of MetaspaceArena::allocate: the result block, the wastage
block handed back to the caller, the arena state after the call, and proof
instrumentation: the alignment-gap words consumed from the current chunk
on the bump path (0 elsewhere), the words consumed from a fresh chunk that
the call never reports (0 elsewhere), and the pointer the source computes
from the fresh chunk at metaspaceArena.cpp:281 before dropping it (none
elsewhere). -/
structure ArenaAllocOut where
  result : MetaBlock
  wastage : MetaBlock
  state : ArenaState
  bump_gap : Nat
  fresh_uncounted : Nat
  fresh_p : Option Addr
deriving DecidableEq, Repr

/-- MetaspaceArena::allocate (metaspaceArena.cpp:203-313).  With a current
chunk, the alignment gap between its top and the next aligned address is
computed; if the chunk's free words cannot hold request plus gap the chunk
is enlarged in place (doubling its word size, spec section 4.1: merging
with its buddy) or deemed too small; then the chunk is committed as far as
needed and bump-allocated, the gap prefix becoming wastage, and the counter
rises by the requested word size (line 298).  If the chunk was too small or
committing failed (or there was no current chunk), a new chunk is
requested; on success the old current chunk is salvaged into wastage
(salvaging increments the counter itself, line 70), the new chunk is
prepended and bump-allocated at line 281 - but the source never assigns
`result` on this path, so `result` stays empty, the increment at line 298
is skipped (line 295 counts a failed allocation) and the empty block is
returned even though the fresh chunk consumed the requested words; the
dropped pointer and the uncounted consumption are recorded in the fresh_p
and fresh_uncounted instrumentation fields.  The branch in which the fresh
chunk cannot serve the request contradicts the asserts at lines 100 and
268 and returns failure with the state unchanged. -/
def arenaAllocate (al : Nat) (st : ArenaState) (requested_word_size : Nat)
    (o : ArenaOracles) : ArenaAllocOut :=
  match st.chunks with
  | [] =>
    match o.new_chunk with
    | none => ⟨MetaBlock.null, MetaBlock.null, st, 0, 0, none⟩
    | some nc =>
      match nc.allocate requested_word_size with
      | none => ⟨MetaBlock.null, MetaBlock.null, st, 0, 0, none⟩
      | some (p, nc1) =>
        ⟨MetaBlock.null, MetaBlock.null,
         ⟨[nc1], st.counter⟩, 0, requested_word_size, some p⟩
  | c :: rest =>
    let alignment_gap_word_size := align_up c.top al - c.top
    let requested_word_size_plus_gap := requested_word_size + alignment_gap_word_size
    let needEnlarge := c.free_words < requested_word_size_plus_gap
    let c1 :=
      if needEnlarge && o.enlarge_ok then { c with word_size := 2 * c.word_size }
      else c
    let current_chunk_too_small := needEnlarge && !o.enlarge_ok
    if current_chunk_too_small = false && o.commit_ok then
      let c2 := c1.ensure_committed_additional requested_word_size_plus_gap true
      match c2.allocate requested_word_size_plus_gap with
      | none => ⟨MetaBlock.null, MetaBlock.null, st, 0, 0, none⟩
      | some (p_gap, c3) =>
        let p_block := align_up p_gap al
        ⟨⟨p_block, requested_word_size⟩, ⟨p_gap, alignment_gap_word_size⟩,
         ⟨c3 :: rest, st.counter + requested_word_size⟩,
         alignment_gap_word_size, 0, none⟩
    else
      match o.new_chunk with
      | none => ⟨MetaBlock.null, MetaBlock.null, st, 0, 0, none⟩
      | some nc =>
        match nc.allocate requested_word_size with
        | none => ⟨MetaBlock.null, MetaBlock.null, st, 0, 0, none⟩
        | some (p, nc1) =>
          let s := salvage_chunk c1
          ⟨MetaBlock.null, s.block,
           ⟨nc1 :: s.chunk :: rest, st.counter + s.inc⟩, 0,
           requested_word_size, some p⟩

/-- The total the destructor's return_counter accumulates while returning
chunks (metaspaceArena.cpp:121-147): the sum of used_words over the walked
chunks, which is then subtracted from the shared used-words counter at
line 141. -/
def arenaDestructorDecrement : List Metachunk → Nat
  | [] => 0
  | c :: rest => c.used_words + arenaDestructorDecrement rest

/-- FreeChunkList::add (freeChunkList.hpp:70-81): a chunk with zero
committed words is pushed to the back of the list, any other chunk to the
front.  The list is modelled front first. -/
def fclAdd (l : List Metachunk) (c : Metachunk) : List Metachunk :=
  if c.committed_words == 0 then l ++ [c] else c :: l

/-- The list states a FreeChunkList can reach through its mutators: it
starts empty, FreeChunkList::add appends or prepends per fclAdd, and
FreeChunkList::remove (also pop via remove_first) deletes one chunk from
anywhere in the list, splicing its neighbours together
(freeChunkList.hpp:68, 84; dllist.hpp:175-194). -/
inductive FclReachable : List Metachunk → Prop
  | nil : FclReachable []
  | add (l : List Metachunk) (c : Metachunk) : FclReachable l → FclReachable (fclAdd l c)
  | remove (l1 : List Metachunk) (c : Metachunk) (l2 : List Metachunk) :
      FclReachable (l1 ++ c :: l2) → FclReachable (l1 ++ l2)

/-- The ordering FreeChunkList::verify checks (freeChunkList.cpp:41-46): once
a fully uncommitted chunk is seen, every later chunk is fully uncommitted;
as a pairwise relation: a committed successor forces a committed
predecessor. -/
def chunkOrder (a b : Metachunk) : Prop :=
  b.committed_words ≠ 0 → a.committed_words ≠ 0

instance : DecidableRel chunkOrder := fun a b => by
  unfold chunkOrder; infer_instance

/-- FreeChunkList::first_minimally_committed (freeChunkList.hpp:91-105):
walk from the front while the chunk under the cursor has fewer committed
words than asked but is not fully uncommitted; then return the cursor's
chunk if it has enough committed words, else null. -/
def first_minimally_committed : List Metachunk → Nat → Option Metachunk
  | [], _ => none
  | c :: rest, min_committed_words =>
    if c.committed_words < min_committed_words ∧ 0 < c.committed_words then
      first_minimally_committed rest min_committed_words
    else if min_committed_words ≤ c.committed_words then some c
    else none

/-! Helper lemmas about the free-block lookup. -/

theorem removeBestFit_snd_sub {l : List MetaBlock} {n : Nat} {b : MetaBlock}
    (hb : b ∈ (removeBestFit l n).2) : b ∈ l := by
  rcases ho : pickBestFit l n with _ | c
  · rw [removeBestFit, ho] at hb
    exact hb
  · rw [removeBestFit, ho] at hb
    exact List.mem_of_mem_erase hb

/-! Concrete values shared by several statements. -/

/-- A concrete configuration: Klass alignment 8 words, sizeof(Klass)
8 words, bin-list cutoff 32 words, allocation alignment 1 word, class space
the range [1000000, 2000000). -/
def cfgA : ClmsConfig := ⟨8, 8, 32, 1, 1000000, 2000000⟩

/-- A one-chunk arena state: chunk at base 1024 of 16 words, fully
committed, 1 word used; counter 1 (conserving). -/
def arenaStA : ArenaState := ⟨[⟨1024, 16, 16, 1⟩], 1⟩

/-- The outcome of allocating 1 word from arenaStA with alignment 2 words,
with the commit limiter agreeing and no new chunk needed. -/
def arenaOutA : ArenaAllocOut := arenaAllocate 2 arenaStA 1 ⟨false, true, none⟩

/-! The claim theorems. -/

/-- C2: the two-argument MetaBlock constructor, as written at
metablock.hpp:41-42, does not satisfy word_size() == n: at p = 4096,
n = 7 it stores base 4096 but word size 0, and consequently tail(3) is the
empty block rather than the block (4099, 4). -/
theorem metablock_ctor_word_size_eval :
    MetaBlock.mk2 4096 7 = ⟨4096, 0⟩ ∧
    (MetaBlock.mk2 4096 7).word_size ≠ 7 ∧
    (MetaBlock.mk2 4096 7).tail 3 = MetaBlock.null := by
  decide

/-- C1: the value the body of ClassLoaderMetaspaceImpl::allocate computes
in its local `result` follows the claim: with the bin list holding (64, 5),
a non-class request of 5 words is served from the free blocks without
consulting the arena; with empty free blocks the arena's block is passed
through and the arena's wastage (888, 3) is deposited into the bin list
before the function ends.  The source function itself ends without a
return statement, so this computed value is not actually returned. -/
theorem clms_allocate_computed_result_eval :
    FbState.clmsAllocate cfgA ⟨[⟨64, 5⟩], [], []⟩ 5 false ⟨999, 7⟩ ⟨888, 3⟩
      = (⟨64, 0⟩, ⟨[⟨64, 5⟩], [], []⟩, false) ∧
    FbState.clmsAllocate cfgA ⟨[], [], []⟩ 5 false ⟨999, 5⟩ ⟨888, 3⟩
      = (⟨999, 5⟩, ⟨[⟨888, 3⟩], [], []⟩, true) := by
  decide

/-- C6: FreeBlocks::remove_block, as written at freeBlocks.cpp:56-79, never
consults the non-class tree: with _tree_nc holding a block of 40 words and
a non-class request of 40 words (at or above the small-block cutoff 32),
it returns the empty block and leaves the tree untouched, although the
tree holds a match of size at least 40. -/
theorem freeblocks_remove_block_skips_tree_eval :
    (FreeBlocks.remove_block cfgA ⟨[], [⟨512, 40⟩], []⟩ 40 false).1 = MetaBlock.null ∧
    (FreeBlocks.remove_block cfgA ⟨[], [⟨512, 40⟩], []⟩ 40 false).2
      = ⟨[], [⟨512, 40⟩], []⟩ ∧
    (∃ b ∈ ([⟨512, 40⟩] : List MetaBlock), 40 ≤ b.word_size) := by
  decide

/-- C7: removing a block for a non-class request of N = 4 words from a bin
list holding one block of M = 10 words at base 256: the code at
classLoaderMetaspaceImpl.cpp:102 calls split_off_tail(word_size), so the
caller receives the block (256, 6) of size M - N = 6, not of size N = 4,
and the re-inserted remainder is the size-4 tail (262, 4), not the size-6
excess the claim (and the function's own ASSERT at lines 167-169)
require. -/
theorem allocate_from_freeblocks_split_eval :
    (FbState.allocate_from_freeblocks cfgA ⟨[⟨256, 10⟩], [], []⟩ 4 false).1
      = ⟨256, 6⟩ ∧
    (FbState.allocate_from_freeblocks cfgA ⟨[⟨256, 10⟩], [], []⟩ 4 false).2
      = ⟨[⟨262, 4⟩], [], []⟩ ∧
    (FbState.allocate_from_freeblocks cfgA ⟨[⟨256, 10⟩], [], []⟩ 4 false).1.word_size
      ≠ 4 := by
  decide

/-- C4, counterexample: starting from the conserving one-chunk state
arenaStA (sum of used words 1 = counter 1), a successful 1-word allocation
at alignment 2 consumes 2 words from the current chunk (1 requested plus a
1-word alignment gap) but raises the counter by only 1: afterwards the
chunks' used words sum to 3 while the counter reads 2, so the quiescent
conservation equation fails. -/
theorem arena_alignment_gap_unconserved_eval :
    arenaStA.sumUsed = arenaStA.counter ∧
    arenaOutA.result.is_empty = false ∧
    arenaOutA.state.counter = arenaStA.counter + 1 ∧
    arenaOutA.state.sumUsed = arenaStA.sumUsed + 2 ∧
    arenaOutA.state.sumUsed ≠ arenaOutA.state.counter := by
  decide

theorem fclReachable_pairwise {l : List Metachunk} (h : FclReachable l) :
    l.Pairwise chunkOrder := by
  induction h with
  | nil => exact List.Pairwise.nil
  | add l c _ ih =>
    unfold fclAdd
    by_cases hc : c.committed_words = 0
    · rw [if_pos (by simpa using hc)]
      rw [List.pairwise_append]
      refine ⟨ih, List.pairwise_singleton _ _, ?_⟩
      intro a _ b hb
      rw [List.mem_singleton] at hb
      subst hb
      intro hcc
      exact absurd hc hcc
    · rw [if_neg (by simpa using hc)]
      rw [List.pairwise_cons]
      exact ⟨fun b _ _ => hc, ih⟩
  | remove l1 c l2 _ ih =>
    have hsub : (l1 ++ l2).Sublist (l1 ++ c :: l2) :=
      List.Sublist.append_left (List.sublist_cons_self c l2) l1
    exact ih.sublist hsub

/-- C9: FreeChunkList::add places a chunk with zero committed words at the
back of the list and any other chunk at the front, and therefore, in every
list state reachable through add and remove operations, a fully
uncommitted chunk at position i and a chunk with nonzero committed words
at position j satisfy j < i: every fully uncommitted chunk lies behind
every partially or fully committed chunk. -/
theorem freechunklist_uncommitted_sink_back :
    (∀ (l : List Metachunk) (c : Metachunk),
      (c.committed_words = 0 → fclAdd l c = l ++ [c]) ∧
      (c.committed_words ≠ 0 → fclAdd l c = c :: l)) ∧
    (∀ l : List Metachunk, FclReachable l → ∀ i j : Fin l.length,
      (l.get i).committed_words = 0 → (l.get j).committed_words ≠ 0 →
      (j : Nat) < (i : Nat)) := by
  constructor
  · intro l c
    constructor
    · intro hc
      simp [fclAdd, hc]
    · intro hc
      simp [fclAdd, hc]
  · intro l hl i j hi hj
    have hp := fclReachable_pairwise hl
    rw [List.pairwise_iff_get] at hp
    rcases Nat.lt_trichotomy (i : Nat) (j : Nat) with hlt | heq | hgt
    · exact absurd hi (hp i j hlt hj)
    · have : i = j := Fin.ext heq
      subst this
      exact absurd hi hj
    · exact hgt

/-- A committed 8-word chunk and a fully uncommitted chunk. -/
def chunkCommA : Metachunk := ⟨0, 8, 4, 0⟩

/-- A fully uncommitted 8-word chunk. -/
def chunkUncommA : Metachunk := ⟨8, 8, 0, 0⟩

theorem freechunklist_uncommitted_sink_back_witness :
    ([chunkCommA, chunkUncommA].get ⟨1, by decide⟩).committed_words = 0 ∧
    ([chunkCommA, chunkUncommA].get ⟨0, by decide⟩).committed_words ≠ 0 ∧
    (0 : Nat) < 1 := by
  have h1 : FclReachable [chunkUncommA] := by
    have := FclReachable.add [] chunkUncommA FclReachable.nil
    simpa [fclAdd, chunkUncommA] using this
  have h2 : FclReachable [chunkCommA, chunkUncommA] := by
    have := FclReachable.add [chunkUncommA] chunkCommA h1
    simpa [fclAdd, chunkCommA] using this
  refine ⟨by decide, by decide, ?_⟩
  exact freechunklist_uncommitted_sink_back.2 [chunkCommA, chunkUncommA] h2
    ⟨1, by decide⟩ ⟨0, by decide⟩ (by decide) (by decide)

theorem first_minimally_committed_some {l : List Metachunk} {m : Nat}
    {c : Metachunk} (h : first_minimally_committed l m = some c) :
    c ∈ l ∧ m ≤ c.committed_words := by
  induction l with
  | nil => simp [first_minimally_committed] at h
  | cons a rest ih =>
    rw [first_minimally_committed] at h
    split at h
    · have := ih h
      exact ⟨List.mem_cons_of_mem _ this.1, this.2⟩
    · split at h
      · cases h
        exact ⟨List.mem_cons_self _ _, by assumption⟩
      · cases h

theorem first_minimally_committed_none {l : List Metachunk} {m : Nat}
    (hord : l.Pairwise chunkOrder) (h : first_minimally_committed l m = none) :
    ∀ c ∈ l, c.committed_words < m := by
  induction l with
  | nil => simp
  | cons a rest ih =>
    rw [first_minimally_committed] at h
    rw [List.pairwise_cons] at hord
    split at h
    · rename_i hskip
      intro c hc
      rcases List.mem_cons.mp hc with h1 | h2
      · subst h1
        exact hskip.1
      · exact ih hord.2 h c h2
    · split at h
      · cases h
      · rename_i hnskip hlt
        have ha : a.committed_words < m := Nat.lt_of_not_le hlt
        have ha0 : a.committed_words = 0 := by
          by_cases h0 : 0 < a.committed_words
          · exact absurd ⟨ha, h0⟩ hnskip
          · omega
        intro c hc
        rcases List.mem_cons.mp hc with h1 | h2
        · subst h1
          exact ha
        · have := hord.1 c h2
          by_cases hcc : c.committed_words = 0
          · omega
          · exact absurd (this hcc) (by simp [ha0])

/-- C10: on a list in which every fully uncommitted chunk lies behind every
chunk with nonzero committed words (the pairwise order FreeChunkList
maintains), first_minimally_committed returns some chunk of the list with
at least the asked committed words exactly when the list contains such a
chunk, and returns none exactly when it does not, although the walk stops
at the first fully uncommitted chunk. -/
theorem first_minimally_committed_correct (l : List Metachunk) (m : Nat)
    (hord : l.Pairwise chunkOrder) :
    ((∃ c, first_minimally_committed l m = some c ∧ c ∈ l ∧
        m ≤ c.committed_words) ↔ ∃ c ∈ l, m ≤ c.committed_words) ∧
    (first_minimally_committed l m = none ↔
      ¬ ∃ c ∈ l, m ≤ c.committed_words) := by
  constructor
  · constructor
    · rintro ⟨c, _, hc, hm⟩
      exact ⟨c, hc, hm⟩
    · rintro ⟨c, hc, hm⟩
      rcases ho : first_minimally_committed l m with _ | d
      · exact absurd hm (Nat.not_le.mpr (first_minimally_committed_none hord ho c hc))
      · have := first_minimally_committed_some ho
        exact ⟨d, rfl, this.1, this.2⟩
  · constructor
    · rintro ho ⟨c, hc, hm⟩
      exact absurd hm (Nat.not_le.mpr (first_minimally_committed_none hord ho c hc))
    · intro hne
      rcases ho : first_minimally_committed l m with _ | d
      · rfl
      · have := first_minimally_committed_some ho
        exact absurd ⟨d, this.1, this.2⟩ hne

theorem first_minimally_committed_correct_witness :
    ((∃ c, first_minimally_committed [chunkCommA, chunkUncommA] 3 = some c ∧
        c ∈ [chunkCommA, chunkUncommA] ∧ 3 ≤ c.committed_words) ↔
      ∃ c ∈ [chunkCommA, chunkUncommA], 3 ≤ c.committed_words) ∧
    (first_minimally_committed [chunkCommA, chunkUncommA] 3 = none ↔
      ¬ ∃ c ∈ [chunkCommA, chunkUncommA], 3 ≤ c.committed_words) :=
  first_minimally_committed_correct [chunkCommA, chunkUncommA] 3 (by decide)

/-- Every block stored in the three ClassLoaderMetaspaceImpl free-block
indexes has at least minimum_allocation_words words. -/
def FbState.all_min (st : FbState) : Prop :=
  (∀ b ∈ st.binlist_nc, minimum_allocation_words ≤ b.word_size) ∧
  (∀ b ∈ st.blocktree_nc, minimum_allocation_words ≤ b.word_size) ∧
  (∀ b ∈ st.blocktree_c, minimum_allocation_words ≤ b.word_size)

/-- Every block stored in the FreeBlocks dictionary's three indexes has at
least minimum_allocation_words words. -/
def FreeBlocks.all_min (fb : FreeBlocks) : Prop :=
  (∀ b ∈ fb.small_blocks_nc, minimum_allocation_words ≤ b.word_size) ∧
  (∀ b ∈ fb.tree_nc, minimum_allocation_words ≤ b.word_size) ∧
  (∀ b ∈ fb.tree_c, minimum_allocation_words ≤ b.word_size)

theorem mem_addToIndex {l : List MetaBlock} {a b : MetaBlock}
    (h : a ∈ addToIndex l b) : a ∈ l ∨ a = b := by
  rcases List.mem_append.mp h with h1 | h2
  · exact Or.inl h1
  · exact Or.inr (List.mem_singleton.mp h2)

theorem deallocate_preserves_all_min {cfg : ClmsConfig} {st : FbState}
    {block : MetaBlock} (h : st.all_min) :
    (st.deallocate_to_free_blocks cfg block).all_min := by
  simp only [FbState.deallocate_to_free_blocks]
  split
  · rename_i hmin
    have hstep : ∀ l : List MetaBlock,
        (∀ b ∈ l, minimum_allocation_words ≤ b.word_size) →
        ∀ b ∈ addToIndex l block, minimum_allocation_words ≤ b.word_size := by
      intro l hl b hb
      rcases mem_addToIndex hb with h1 | h2
      · exact hl b h1
      · subst h2
        exact hmin
    split
    · exact ⟨h.1, h.2.1, hstep _ h.2.2⟩
    · split
      · exact ⟨h.1, hstep _ h.2.1, h.2.2⟩
      · exact ⟨hstep _ h.1, h.2.1, h.2.2⟩
  · exact h

theorem removeBestFit_all_min {l : List MetaBlock} {n : Nat}
    (h : ∀ b ∈ l, minimum_allocation_words ≤ b.word_size) :
    ∀ b ∈ (removeBestFit l n).2, minimum_allocation_words ≤ b.word_size :=
  fun b hb => h b (removeBestFit_snd_sub hb)

theorem freeblocksLookup_all_min {cfg : ClmsConfig} {st : FbState}
    {ws : Nat} {kc : Bool} (h : st.all_min) :
    (st.freeblocksLookup cfg ws kc).2.all_min := by
  simp only [FbState.freeblocksLookup]
  split
  · exact ⟨h.1, h.2.1, removeBestFit_all_min h.2.2⟩
  · split
    · split
      · exact ⟨removeBestFit_all_min h.1, removeBestFit_all_min h.2.1, h.2.2⟩
      · exact ⟨removeBestFit_all_min h.1, h.2.1, h.2.2⟩
    · split
      · exact ⟨h.1, removeBestFit_all_min h.2.1, h.2.2⟩
      · exact ⟨h.1, h.2.1, h.2.2⟩

theorem afb_preserves_all_min {cfg : ClmsConfig} {st : FbState}
    {ws : Nat} {kc : Bool} (h : st.all_min) :
    (st.allocate_from_freeblocks cfg ws kc).2.all_min := by
  have hfound := @freeblocksLookup_all_min cfg st ws kc h
  simp only [FbState.allocate_from_freeblocks]
  split
  · split
    · exact deallocate_preserves_all_min hfound
    · exact hfound
  · exact hfound

/-- C8: no entry smaller than minimum_allocation_words is ever stored.
Every storing path preserves the invariant that every block in the
free-block indexes has at least minimum_allocation_words words:
deallocate_to_free_blocks (the explicit ClassLoaderMetaspaceImpl::deallocate
path and the wastage-deposit path of ClassLoaderMetaspaceImpl::allocate
both land here, and it drops smaller blocks), the split-remainder re-insert
inside allocate_from_freeblocks, the whole allocate path, and
FreeBlocks::add_block, whose argument per the spec is at least the minimum
useful size. -/
theorem freeblock_min_size_invariant :
    (∀ (cfg : ClmsConfig) (st : FbState) (block : MetaBlock), st.all_min →
      (st.deallocate_to_free_blocks cfg block).all_min) ∧
    (∀ (cfg : ClmsConfig) (st : FbState) (ws : Nat) (kc : Bool), st.all_min →
      (st.allocate_from_freeblocks cfg ws kc).2.all_min) ∧
    (∀ (cfg : ClmsConfig) (st : FbState) (ws : Nat) (kc : Bool)
      (ar aw : MetaBlock), st.all_min →
      (st.clmsAllocate cfg ws kc ar aw).2.1.all_min) ∧
    (∀ (cfg : ClmsConfig) (fb : FreeBlocks) (block : MetaBlock), fb.all_min →
      minimum_allocation_words ≤ block.word_size →
      (fb.add_block cfg block).all_min) := by
  refine ⟨fun cfg st block h => deallocate_preserves_all_min h,
          fun cfg st ws kc h => afb_preserves_all_min h, ?_, ?_⟩
  · intro cfg st ws kc ar aw h
    have h1 := @afb_preserves_all_min cfg st ws kc h
    simp only [FbState.clmsAllocate]
    split <;> (try split) <;>
      first
        | exact deallocate_preserves_all_min h1
        | exact h1
  · intro cfg fb block h hmin
    simp only [FreeBlocks.add_block]
    have hstep : ∀ l : List MetaBlock,
        (∀ b ∈ l, minimum_allocation_words ≤ b.word_size) →
        ∀ b ∈ addToIndex l block, minimum_allocation_words ≤ b.word_size := by
      intro l hl b hb
      rcases mem_addToIndex hb with h1 | h2
      · exact hl b h1
      · subst h2
        exact hmin
    split
    · exact ⟨h.1, h.2.1, hstep _ h.2.2⟩
    · split
      · exact ⟨h.1, hstep _ h.2.1, h.2.2⟩
      · exact ⟨hstep _ h.1, h.2.1, h.2.2⟩

theorem freeblock_min_size_invariant_witness :
    ((⟨[], [], []⟩ : FbState).deallocate_to_free_blocks cfgA ⟨64, 8⟩).all_min ∧
    ((⟨[], [], []⟩ : FreeBlocks).add_block cfgA ⟨64, 8⟩).all_min := by
  constructor
  · exact freeblock_min_size_invariant.1 cfgA ⟨[], [], []⟩ ⟨64, 8⟩
      ⟨by simp, by simp, by simp⟩
  · exact freeblock_min_size_invariant.2.2.2 cfgA ⟨[], [], []⟩ ⟨64, 8⟩
      ⟨by simp, by simp, by simp⟩ (by decide)

theorem metachunk_allocate_some {c : Metachunk} {n : Nat} {p : Addr}
    {c1 : Metachunk} (h : c.allocate n = some (p, c1)) :
    p = c.top ∧ c1 = { c with used_words := c.used_words + n } := by
  unfold Metachunk.allocate at h
  split at h
  · cases h
    exact ⟨rfl, rfl⟩
  · cases h

theorem ensure_committed_used (c : Metachunk) (n : Nat) (ok : Bool) :
    (c.ensure_committed_additional n ok).used_words = c.used_words := by
  unfold Metachunk.ensure_committed_additional
  split <;> rfl

theorem salvage_chunk_used (c : Metachunk) :
    (salvage_chunk c).chunk.used_words = c.used_words + (salvage_chunk c).inc := by
  simp only [salvage_chunk]
  split <;> simp

theorem salvage_chunk_inc_eq (c : Metachunk) :
    (salvage_chunk c).inc = (salvage_chunk c).block.word_size := by
  simp only [salvage_chunk]
  split <;> simp [MetaBlock.null]

theorem enlarged_used (c : Metachunk) (cond : Bool) :
    (if cond = true then { c with word_size := 2 * c.word_size } else c).used_words
      = c.used_words := by
  split <;> rfl

/-- C3: the free-block lookup after an exact-fit deallocate does hit
without consulting the arena, but does not satisfy the request as the
claim states: deallocating the non-class block (64, 8) into empty
free-block structures and then computing allocate(8, non-class) yields the
zero-size block (64, 0) - split_off_tail(word_size) at
classLoaderMetaspaceImpl.cpp:102 strips all 8 words back into the bin
list - with the arena-invoked flag false (so no new chunk is requested);
and the enclosing ClassLoaderMetaspaceImpl::allocate then ends without a
return statement (lines 147-171), so even this block is never returned. -/
theorem clms_exact_fit_lookup_eval :
    (((⟨[], [], []⟩ : FbState).clmsDeallocate cfgA ⟨64, 8⟩).clmsAllocate cfgA 8
        false MetaBlock.null MetaBlock.null)
      = (⟨64, 0⟩, ⟨[⟨64, 8⟩], [], []⟩, false) := by
  decide

/-- C5: the bump path of MetaspaceArena::allocate returns a non-empty
block whose base is the aligned address align_up(top, alignment), but the
fresh-chunk path never returns a block at all: the source computes the
pointer from the fresh chunk at metaspaceArena.cpp:281 (asserting its
alignment at line 287) yet never assigns `result`, so with an empty arena
and the ChunkManager handing out an unused committed chunk at base 1024, a
4-word request at alignment 2 consumes 4 words of the chunk, drops the
aligned pointer 1024 and returns the empty block.  The bump-path conjunct
is checked on the arenaStA allocation.  -/
theorem arena_fresh_chunk_result_dropped_eval :
    (arenaAllocate 2 ⟨[], 0⟩ 4 ⟨false, false, some ⟨1024, 16, 16, 0⟩⟩).result
      = MetaBlock.null ∧
    (arenaAllocate 2 ⟨[], 0⟩ 4 ⟨false, false, some ⟨1024, 16, 16, 0⟩⟩).state
      = ⟨[⟨1024, 16, 16, 4⟩], 0⟩ ∧
    (arenaAllocate 2 ⟨[], 0⟩ 4 ⟨false, false, some ⟨1024, 16, 16, 0⟩⟩).fresh_p
      = some 1024 ∧
    1024 % 2 = 0 ∧
    arenaOutA.result.is_empty = false ∧
    arenaOutA.result.base % 2 = 0 := by
  decide

/-- C4, amended: after one MetaspaceArena::allocate call the difference
between the chunks' summed used words and the used-words counter grows by
exactly the bump-path alignment-gap words (consumed from the chunk,
returned as wastage, never counted - line 298 adds only the requested
words) plus, on the chunk-consuming fresh-chunk path, the full requested
word size (the source never assigns `result` at metaspaceArena.cpp:281-288,
so the increment at line 298 is skipped while the fresh chunk's used words
grew; that path also returns the empty block).  salvage_chunk raises the
counter by exactly the salvaged block's word size, which it also consumes
from the chunk, and the destructor's decrement equals the sum of used
words over the walked chunks.  Conservation as claimed holds only for
calls with neither an alignment gap nor a fresh-chunk acquisition. -/
theorem arena_usage_drift_accounting (al : Nat) (st : ArenaState) (R : Nat)
    (o : ArenaOracles)
    (hnc : ∀ nc : Metachunk, o.new_chunk = some nc → nc.used_words = 0) :
    ((arenaAllocate al st R o).state.sumUsed + st.counter
      = st.sumUsed + (arenaAllocate al st R o).state.counter
        + (arenaAllocate al st R o).bump_gap
        + (arenaAllocate al st R o).fresh_uncounted)
    ∧ ((arenaAllocate al st R o).fresh_uncounted ≠ 0 →
        (arenaAllocate al st R o).result = MetaBlock.null)
    ∧ (∀ c : Metachunk,
        (salvage_chunk c).inc = (salvage_chunk c).block.word_size
        ∧ (salvage_chunk c).chunk.used_words
            = c.used_words + (salvage_chunk c).inc)
    ∧ (∀ l : List Metachunk,
        arenaDestructorDecrement l = (ArenaState.mk l 0).sumUsed) := by
  refine ⟨?_, ?_, fun c => ⟨salvage_chunk_inc_eq c, salvage_chunk_used c⟩, ?_⟩
  · rcases st with ⟨chunks, counter⟩
    cases chunks with
    | nil =>
      rcases hnk : o.new_chunk with _ | nc
      · simp [arenaAllocate, hnk]
      · rcases ha : nc.allocate R with _ | pc
        · simp [arenaAllocate, hnk, ha]
        · rcases pc with ⟨p, nc1⟩
          have h2 := (metachunk_allocate_some ha).2
          have hu := hnc nc hnk
          subst h2
          simp [arenaAllocate, hnk, ha, ArenaState.sumUsed, hu]
          omega
    | cons c rest =>
      simp only [arenaAllocate]
      split
      · split
        · simp [ArenaState.sumUsed]
        · rename_i p_gap c3 heq
          have h2 := (metachunk_allocate_some heq).2
          subst h2
          simp only [ArenaState.sumUsed, List.map_cons, List.sum_cons,
            ensure_committed_used, enlarged_used]
          omega
      · split
        · simp [ArenaState.sumUsed]
        · rename_i nc hnk
          split
          · simp [ArenaState.sumUsed]
          · rename_i p nc1 ha
            have h2 := (metachunk_allocate_some ha).2
            have hu := hnc nc hnk
            subst h2
            simp only [ArenaState.sumUsed, List.map_cons, List.sum_cons,
              salvage_chunk_used, enlarged_used, hu]
            omega
  · rcases st with ⟨chunks, counter⟩
    cases chunks with
    | nil =>
      rcases hnk : o.new_chunk with _ | nc
      · intro h
        simp [arenaAllocate, hnk] at h
      · rcases ha : nc.allocate R with _ | pc
        · intro h
          simp [arenaAllocate, hnk, ha] at h
        · rcases pc with ⟨p, nc1⟩
          intro _
          simp [arenaAllocate, hnk, ha]
    | cons c rest =>
      simp only [arenaAllocate]
      split
      · split
        · intro h
          exact absurd rfl h
        · intro h
          exact absurd rfl h
      · split
        · intro h
          exact absurd rfl h
        · split
          · intro h
            exact absurd rfl h
          · intro _
            rfl
  · intro l
    induction l with
    | nil => simp [arenaDestructorDecrement, ArenaState.sumUsed]
    | cons c rest ih =>
      simp only [arenaDestructorDecrement, ArenaState.sumUsed, List.map_cons,
        List.sum_cons] at ih ⊢
      omega

theorem arena_usage_drift_accounting_witness :
    (arenaAllocate 2 arenaStA 1 ⟨false, true, none⟩).state.sumUsed
        + arenaStA.counter
      = arenaStA.sumUsed
        + (arenaAllocate 2 arenaStA 1 ⟨false, true, none⟩).state.counter
        + (arenaAllocate 2 arenaStA 1 ⟨false, true, none⟩).bump_gap
        + (arenaAllocate 2 arenaStA 1 ⟨false, true, none⟩).fresh_uncounted :=
  (arena_usage_drift_accounting 2 arenaStA 1 ⟨false, true, none⟩
    (by intro nc h; cases h)).1

end Metaspace
